import Mathlib

/-!
Shallow embedding of the windsurf-physics core:
* `compute` from `src/physics.ts` (the Force Model), and
* `topSpeed` from `src/App.tsx` (the Top-Speed Solver).

JavaScript `number` arithmetic is modelled over the exact reals `ℝ`:
`Math.hypot x y` is `Real.sqrt (x^2 + y^2)`, and `Math.atan2 y x` is the
principal argument of the complex number `x + y*I` (range `(-π, π]`,
`atan2 0 0 = 0`), which is the mathematical function atan2 implements.
The two `while` angle-normalization loops are well-founded recursions
`subLoop` / `addLoop`.
-/

set_option maxRecDepth 4000

namespace Windsurf

open Real

/-- The `Inputs` record of `physics.ts`. -/
structure Inputs where
  trueWindSpeed : ℝ
  courseAngleDeg : ℝ
  boardSpeed : ℝ
  sailArea : ℝ
  sheetingDeg : ℝ
  downhaul : ℝ
  outhaul : ℝ

/-- The `Outputs` record of `physics.ts`. -/
structure Outputs where
  apparentWindSpeed : ℝ
  apparentWindAngleDeg : ℝ
  alphaDeg : ℝ
  cl : ℝ
  cd : ℝ
  liftN : ℝ
  dragN : ℝ
  driveN : ℝ
  sideN : ℝ
  powerW : ℝ
  Va_x : ℝ
  Va_y : ℝ
  L_x : ℝ
  L_y : ℝ
  D_x : ℝ
  D_y : ℝ
  F_x : ℝ
  F_y : ℝ

/-- `const DEG = Math.PI / 180`. -/
noncomputable def DEG : ℝ := Real.pi / 180

/-- `const RAD = 180 / Math.PI`. -/
noncomputable def RAD : ℝ := 180 / Real.pi

/-- `clamp(x, lo, hi) = Math.max(lo, Math.min(hi, x))`. -/
def clamp (x lo hi : ℝ) : ℝ := max lo (min hi x)

/-- `vecMag(x, y) = Math.hypot(x, y)`. -/
noncomputable def vecMag (x y : ℝ) : ℝ := Real.sqrt (x ^ 2 + y ^ 2)

/-- `angleDegFromXY(x, y) = Math.atan2(y, x) * RAD`, with `Math.atan2 y x`
modelled as the principal argument of `x + y*I`. -/
noncomputable def angleDegFromXY (x y : ℝ) : ℝ :=
  Complex.arg ((x : ℂ) + (y : ℂ) * Complex.I) * RAD

/-- Measure for the `while (alphaDeg > 180) alphaDeg -= 360` loop. -/
noncomputable def subIter (x : ℝ) : ℕ := (⌈(x - 180) / 360⌉).toNat

/-- Measure for the `while (alphaDeg < -180) alphaDeg += 360` loop. -/
noncomputable def addIter (x : ℝ) : ℕ := (⌈(-180 - x) / 360⌉).toNat

lemma subIter_decr {x : ℝ} (h : 180 < x) : subIter (x - 360) < subIter x := by
  unfold subIter
  have h1 : (x - 360 - 180) / 360 = (x - 180) / 360 - 1 := by ring
  rw [h1, Int.ceil_sub_one]
  have h2 : 0 < (x - 180) / 360 := div_pos (by linarith) (by norm_num)
  have h3 : (1 : ℤ) ≤ ⌈(x - 180) / 360⌉ := by
    exact_mod_cast Int.le_ceil_iff.mpr (by norm_num [h2])
  omega

lemma addIter_decr {x : ℝ} (h : x < -180) : addIter (x + 360) < addIter x := by
  unfold addIter
  have h1 : (-180 - (x + 360)) / 360 = (-180 - x) / 360 - 1 := by ring
  rw [h1, Int.ceil_sub_one]
  have h2 : 0 < (-180 - x) / 360 := div_pos (by linarith) (by norm_num)
  have h3 : (1 : ℤ) ≤ ⌈(-180 - x) / 360⌉ := by
    exact_mod_cast Int.le_ceil_iff.mpr (by norm_num [h2])
  omega

/-- `while (alphaDeg > 180) alphaDeg -= 360;` as a recursion. -/
noncomputable def subLoop (x : ℝ) : ℝ :=
  if 180 < x then subLoop (x - 360) else x
termination_by subIter x
decreasing_by exact subIter_decr (by assumption)

/-- `while (alphaDeg < -180) alphaDeg += 360;` as a recursion. -/
noncomputable def addLoop (x : ℝ) : ℝ :=
  if x < -180 then addLoop (x + 360) else x
termination_by addIter x
decreasing_by exact addIter_decr (by assumption)

/-- `const Vw_x = tw * Math.cos(Math.PI - course)` with
`course = inputs.courseAngleDeg * DEG`. -/
noncomputable def Vw_x (inp : Inputs) : ℝ :=
  inp.trueWindSpeed * Real.cos (Real.pi - inp.courseAngleDeg * DEG)

/-- `const Vw_y = tw * Math.sin(Math.PI - course)`. -/
noncomputable def Vw_y (inp : Inputs) : ℝ :=
  inp.trueWindSpeed * Real.sin (Real.pi - inp.courseAngleDeg * DEG)

/-- `const Vb_x = inputs.boardSpeed` (and `Vb_y = 0`). -/
def Vb_x (inp : Inputs) : ℝ := inp.boardSpeed

/-- `const Va_x = Vw_x - Vb_x`. -/
noncomputable def Va_x (inp : Inputs) : ℝ := Vw_x inp - Vb_x inp

/-- `const Va_y = Vw_y - Vb_y` (with `Vb_y = 0`). -/
noncomputable def Va_y (inp : Inputs) : ℝ := Vw_y inp - 0

/-- `const Va = vecMag(Va_x, Va_y)`. -/
noncomputable def Va (inp : Inputs) : ℝ := vecMag (Va_x inp) (Va_y inp)

/-- `const awaDeg = angleDegFromXY(Va_x, Va_y)`. -/
noncomputable def awaDeg (inp : Inputs) : ℝ := angleDegFromXY (Va_x inp) (Va_y inp)

/-- `const sailAngleDeg = clamp(inputs.sheetingDeg, -85, 85)`. -/
def sailAngleDeg (inp : Inputs) : ℝ := clamp inp.sheetingDeg (-85) 85

/-- `let alphaDeg = awaDeg - sailAngleDeg` (the value before the two
normalization loops). -/
noncomputable def alphaRaw (inp : Inputs) : ℝ := awaDeg inp - sailAngleDeg inp

/-- The value of `alphaDeg` after both normalization loops. -/
noncomputable def alphaDeg (inp : Inputs) : ℝ := addLoop (subLoop (alphaRaw inp))

/-- `const rho = 1.225`. -/
noncomputable def rho : ℝ := 1.225

/-- `const flatness = clamp(0.5*inputs.downhaul + 0.5*inputs.outhaul, 0, 1)`. -/
def flatness (inp : Inputs) : ℝ :=
  clamp (0.5 * inp.downhaul + 0.5 * inp.outhaul) 0 1

/-- `const stallDeg = 18 - 5 * flatness`. -/
def stallDeg (inp : Inputs) : ℝ := 18 - 5 * flatness inp

/-- `const clAlphaPerDeg = 0.11`. -/
noncomputable def clAlphaPerDeg : ℝ := 0.11

/-- `const clMax = 1.2 - 0.4 * flatness`. -/
noncomputable def clMax (inp : Inputs) : ℝ := 1.2 - 0.4 * flatness inp

/-- `const alphaLin = clamp(alphaDeg, -stallDeg, stallDeg)`. -/
noncomputable def alphaLin (inp : Inputs) : ℝ :=
  clamp (alphaDeg inp) (-stallDeg inp) (stallDeg inp)

/-- `let cl = clAlphaPerDeg * alphaLin; cl = clamp(cl, -clMax, clMax)`. -/
noncomputable def cl (inp : Inputs) : ℝ :=
  clamp (clAlphaPerDeg * alphaLin inp) (-clMax inp) (clMax inp)

/-- `const cd0 = 0.08 - 0.02 * flatness`. -/
noncomputable def cd0 (inp : Inputs) : ℝ := 0.08 - 0.02 * flatness inp

/-- `const k = 0.06`. -/
noncomputable def kInduced : ℝ := 0.06

/-- `const cd = cd0 + k * cl * cl`. -/
noncomputable def cd (inp : Inputs) : ℝ := cd0 inp + kInduced * cl inp * cl inp

/-- `const q = 0.5 * rho * Va * Va`. -/
noncomputable def q (inp : Inputs) : ℝ := 0.5 * rho * Va inp * Va inp

/-- `const liftN = q * A * cl`. -/
noncomputable def liftN (inp : Inputs) : ℝ := q inp * inp.sailArea * cl inp

/-- `const dragN = q * A * cd`. -/
noncomputable def dragN (inp : Inputs) : ℝ := q inp * inp.sailArea * cd inp

/-- `const eps = 1e-9`. -/
noncomputable def eps : ℝ := 1e-9

/-- `const ux = Va_x / (Va + eps)`. -/
noncomputable def ux (inp : Inputs) : ℝ := Va_x inp / (Va inp + eps)

/-- `const uy = Va_y / (Va + eps)`. -/
noncomputable def uy (inp : Inputs) : ℝ := Va_y inp / (Va inp + eps)

/-- `const D_x = -dragN * ux`. -/
noncomputable def D_x (inp : Inputs) : ℝ := -dragN inp * ux inp

/-- `const D_y = -dragN * uy`. -/
noncomputable def D_y (inp : Inputs) : ℝ := -dragN inp * uy inp

/-- `const sign = alphaDeg >= 0 ? 1 : -1`. -/
noncomputable def liftSign (inp : Inputs) : ℝ := if 0 ≤ alphaDeg inp then 1 else -1

/-- `const L_x = sign * liftN * (-uy)`. -/
noncomputable def L_x (inp : Inputs) : ℝ := liftSign inp * liftN inp * (-uy inp)

/-- `const L_y = sign * liftN * (ux)`. -/
noncomputable def L_y (inp : Inputs) : ℝ := liftSign inp * liftN inp * ux inp

/-- `const F_x = L_x + D_x`. -/
noncomputable def F_x (inp : Inputs) : ℝ := L_x inp + D_x inp

/-- `const F_y = L_y + D_y`. -/
noncomputable def F_y (inp : Inputs) : ℝ := L_y inp + D_y inp

/-- `export function compute(inputs: Inputs): Outputs` of `physics.ts`,
assembled from the named intermediate values above exactly as the returned
object literal does. -/
noncomputable def compute (inp : Inputs) : Outputs :=
  { apparentWindSpeed := Va inp
    apparentWindAngleDeg := awaDeg inp
    alphaDeg := alphaDeg inp
    cl := cl inp
    cd := cd inp
    liftN := liftN inp
    dragN := dragN inp
    Va_x := Va_x inp
    Va_y := Va_y inp
    L_x := L_x inp
    L_y := L_y inp
    D_x := D_x inp
    D_y := D_y inp
    F_x := F_x inp
    F_y := F_y inp
    driveN := F_x inp
    sideN := F_y inp
    powerW := F_x inp * inp.boardSpeed }

/-- The record returned by the `topSpeed` memo of `App.tsx`. -/
structure TopSpeedResult where
  mps : ℝ
  kn : ℝ
  driveN : ℝ
  waterDragN : ℝ

/-- The sweep loop of `topSpeed` in `App.tsx`:
`for (let V = 0; V <= 30; V += 0.1)` visits, in exact arithmetic, the 301
speeds `V = kk/10` for `kk = 0..300`; the body tracks
`if (max(0, -driveN) >= waterC0 + waterC2*V*V) best = V`, starting at 0. -/
noncomputable def topSpeedBest (inp : Inputs) (waterC0 waterC2 : ℝ) : ℝ :=
  (List.range 301).foldl
    (fun (best : ℝ) (kk : ℕ) =>
      let V : ℝ := (kk : ℝ) / 10
      let outV := compute { inp with boardSpeed := V }
      let drive := max 0 (-outV.driveN)
      let waterDrag := waterC0 + waterC2 * V * V
      if waterDrag ≤ drive then V else best)
    0

/-- The `topSpeed` computation of `App.tsx`: the sweep above, then the
returned record built from `best`. -/
noncomputable def topSpeed (inp : Inputs) (waterC0 waterC2 : ℝ) : TopSpeedResult :=
  let best := topSpeedBest inp waterC0 waterC2
  { mps := best
    kn := best * 1.943844
    driveN := -(compute { inp with boardSpeed := best }).driveN
    waterDragN := waterC0 + waterC2 * best * best }

/-- Concrete input: trueWindSpeed 1, courseAngleDeg 275, boardSpeed 0,
sailArea 1, sheetingDeg 85, downhaul 0, outhaul 0.  Its apparent wind
angle is exactly -95°, so `alphaDeg = -95 - 85 = -180`. -/
def c1ex : Inputs := ⟨1, 275, 0, 1, 85, 0, 0⟩

/-- Concrete input: trueWindSpeed 1, courseAngleDeg 0 (downwind), boardSpeed 0,
sailArea 1, sheetingDeg 0, downhaul 0, outhaul 0.  At board speed 0 its
`driveN` is strictly positive (pure drag pointing forward). -/
def ex2 : Inputs := ⟨1, 0, 0, 1, 0, 0, 0⟩

/-! ### Basic facts about `clamp` -/

lemma le_clamp (x lo hi : ℝ) : lo ≤ clamp x lo hi := le_max_left _ _

lemma clamp_le {lo hi : ℝ} (x : ℝ) (h : lo ≤ hi) : clamp x lo hi ≤ hi :=
  max_le h (min_le_left _ _)

lemma clamp_eq_of_mem {x lo hi : ℝ} (h1 : lo ≤ x) (h2 : x ≤ hi) :
    clamp x lo hi = x := by
  unfold clamp
  rw [min_eq_right h2, max_eq_right h1]

lemma clamp_eq_hi {x lo hi : ℝ} (hlo : lo ≤ hi) (h : hi ≤ x) :
    clamp x lo hi = hi := by
  unfold clamp
  rw [min_eq_left h, max_eq_right hlo]

lemma clamp_eq_lo {x lo hi : ℝ} (hlo : lo ≤ hi) (h : x ≤ lo) :
    clamp x lo hi = lo := by
  unfold clamp
  rw [min_eq_right (h.trans hlo), max_eq_left h]

lemma flatness_mem (inp : Inputs) : 0 ≤ flatness inp ∧ flatness inp ≤ 1 :=
  ⟨le_clamp _ _ _, clamp_le _ (by norm_num)⟩

lemma clMax_mem (inp : Inputs) : 0.8 ≤ clMax inp ∧ clMax inp ≤ 1.2 := by
  obtain ⟨h0, h1⟩ := flatness_mem inp
  unfold clMax
  constructor <;> nlinarith

lemma stallDeg_mem (inp : Inputs) : 13 ≤ stallDeg inp ∧ stallDeg inp ≤ 18 := by
  obtain ⟨h0, h1⟩ := flatness_mem inp
  unfold stallDeg
  constructor <;> nlinarith

lemma sailAngleDeg_mem (inp : Inputs) :
    -85 ≤ sailAngleDeg inp ∧ sailAngleDeg inp ≤ 85 :=
  ⟨le_clamp _ _ _, clamp_le _ (by norm_num)⟩

/-! ### The normalization loops -/

lemma subLoop_of_le {x : ℝ} (h : x ≤ 180) : subLoop x = x := by
  conv_lhs => rw [subLoop]
  rw [if_neg (not_lt.mpr h)]

lemma subLoop_of_gt {x : ℝ} (h : 180 < x) : subLoop x = subLoop (x - 360) := by
  conv_lhs => rw [subLoop]
  rw [if_pos h]

lemma addLoop_of_ge {x : ℝ} (h : -180 ≤ x) : addLoop x = x := by
  conv_lhs => rw [addLoop]
  rw [if_neg (not_lt.mpr h)]

lemma addLoop_of_lt {x : ℝ} (h : x < -180) : addLoop x = addLoop (x + 360) := by
  conv_lhs => rw [addLoop]
  rw [if_pos h]

lemma subLoop_le (x : ℝ) : subLoop x ≤ 180 := by
  by_cases h : 180 < x
  · rw [subLoop_of_gt h]
    exact subLoop_le (x - 360)
  · rw [subLoop_of_le (not_lt.mp h)]
    exact not_lt.mp h
termination_by subIter x
decreasing_by exact subIter_decr h

lemma addLoop_ge (x : ℝ) : -180 ≤ addLoop x := by
  by_cases h : x < -180
  · rw [addLoop_of_lt h]
    exact addLoop_ge (x + 360)
  · rw [addLoop_of_ge (not_lt.mp h)]
    exact not_lt.mp h
termination_by addIter x
decreasing_by exact addIter_decr h

lemma addLoop_le (x : ℝ) (hx : x ≤ 180) : addLoop x ≤ 180 := by
  by_cases h : x < -180
  · rw [addLoop_of_lt h]
    exact addLoop_le (x + 360) (by linarith)
  · rw [addLoop_of_ge (not_lt.mp h)]
    exact hx
termination_by addIter x
decreasing_by exact addIter_decr h

lemma alphaDeg_mem (inp : Inputs) : -180 ≤ alphaDeg inp ∧ alphaDeg inp ≤ 180 :=
  ⟨addLoop_ge _, addLoop_le _ (subLoop_le _)⟩

lemma RAD_pos : 0 < RAD := div_pos (by norm_num) Real.pi_pos

lemma awaDeg_mem (inp : Inputs) : -180 < awaDeg inp ∧ awaDeg inp ≤ 180 := by
  have harg := Complex.arg_mem_Ioc ((Va_x inp : ℂ) + (Va_y inp : ℂ) * Complex.I)
  obtain ⟨hlo, hhi⟩ := harg
  have hpi : Real.pi * RAD = 180 := by
    unfold RAD
    field_simp
  constructor
  · have := mul_lt_mul_of_pos_right hlo RAD_pos
    unfold awaDeg angleDegFromXY
    nlinarith [RAD_pos]
  · have := mul_le_mul_of_nonneg_right hhi RAD_pos.le
    unfold awaDeg angleDegFromXY
    nlinarith [RAD_pos]

lemma alphaRaw_mem (inp : Inputs) : -265 < alphaRaw inp ∧ alphaRaw inp ≤ 265 := by
  obtain ⟨h1, h2⟩ := awaDeg_mem inp
  obtain ⟨h3, h4⟩ := sailAngleDeg_mem inp
  unfold alphaRaw
  constructor <;> linarith

/-- **C8**: the two angle-normalization loops in `compute` terminate, and on
the actual pre-loop value `alphaRaw` (apparent wind angle minus clamped
sheeting angle) each loop body runs at most once: each loop equals a single
conditional ±360 adjustment. -/
theorem C8_loops_one_step (inp : Inputs) :
    (compute inp).alphaDeg = addLoop (subLoop (alphaRaw inp)) ∧
    subLoop (alphaRaw inp) =
      (if 180 < alphaRaw inp then alphaRaw inp - 360 else alphaRaw inp) ∧
    addLoop (subLoop (alphaRaw inp)) =
      (if subLoop (alphaRaw inp) < -180 then subLoop (alphaRaw inp) + 360
       else subLoop (alphaRaw inp)) := by
  obtain ⟨hd1, hd2⟩ := alphaRaw_mem inp
  have hsub : subLoop (alphaRaw inp) =
      (if 180 < alphaRaw inp then alphaRaw inp - 360 else alphaRaw inp) := by
    by_cases h : 180 < alphaRaw inp
    · rw [subLoop_of_gt h, subLoop_of_le (by linarith), if_pos h]
    · rw [subLoop_of_le (not_lt.mp h), if_neg h]
  refine ⟨rfl, hsub, ?_⟩
  rw [hsub]
  by_cases h : 180 < alphaRaw inp
  · rw [if_pos h]
    rw [if_neg (by push_neg; linarith), addLoop_of_ge (by linarith)]
  · rw [if_neg h]
    by_cases h2 : alphaRaw inp < -180
    · rw [if_pos h2, addLoop_of_lt h2, addLoop_of_ge (by linarith)]
    · rw [if_neg h2, addLoop_of_ge (not_lt.mp h2)]

/-- **C1 (counterexample)**: at the concrete input `c1ex` (apparent wind angle
-95°, sheeting 85°) `compute` returns `alphaDeg = -180` exactly, so `alphaDeg`
is not always in the half-open interval `(-180, 180]`. -/
theorem C1_counterexample :
    (compute c1ex).alphaDeg = -180 ∧
    ¬(-180 < (compute c1ex).alphaDeg ∧ (compute c1ex).alphaDeg ≤ 180) := by
  have hθ : Real.pi - c1ex.courseAngleDeg * DEG = -(19 * Real.pi / 36) := by
    show Real.pi - 275 * DEG = -(19 * Real.pi / 36)
    unfold DEG
    ring
  have hx : Va_x c1ex = Real.cos (-(19 * Real.pi / 36)) := by
    unfold Va_x Vw_x Vb_x
    rw [hθ]
    show 1 * Real.cos (-(19 * Real.pi / 36)) - 0 = _
    ring
  have hy : Va_y c1ex = Real.sin (-(19 * Real.pi / 36)) := by
    unfold Va_y Vw_y
    rw [hθ]
    show 1 * Real.sin (-(19 * Real.pi / 36)) - 0 = _
    ring
  have hmem : -(19 * Real.pi / 36) ∈ Set.Ioc (-Real.pi) Real.pi := by
    constructor
    · nlinarith [Real.pi_pos]
    · nlinarith [Real.pi_pos]
  have hawa : awaDeg c1ex = -95 := by
    unfold awaDeg angleDegFromXY
    rw [hx, hy, Complex.ofReal_cos, Complex.ofReal_sin,
      Complex.arg_cos_add_sin_mul_I hmem]
    unfold RAD
    field_simp
    ring
  have hsail : sailAngleDeg c1ex = 85 := by
    unfold sailAngleDeg
    show clamp 85 (-85) 85 = 85
    exact clamp_eq_of_mem (by norm_num) (by norm_num)
  have hraw : alphaRaw c1ex = -180 := by
    unfold alphaRaw
    rw [hawa, hsail]
    norm_num
  have halpha : (compute c1ex).alphaDeg = -180 := by
    show alphaDeg c1ex = -180
    unfold alphaDeg
    rw [hraw, subLoop_of_le (by norm_num), addLoop_of_ge (by norm_num)]
  refine ⟨halpha, ?_⟩
  rw [halpha]
  intro h
  exact absurd h.1 (by norm_num)

/-- **C1 (amended)**: for every input, the `alphaDeg` returned by `compute`
lies in the closed interval `[-180, 180]` (the endpoint `-180` is attainable,
as `C1_counterexample` shows). -/
theorem C1_amended_alphaDeg_mem (inp : Inputs) :
    -180 ≤ (compute inp).alphaDeg ∧ (compute inp).alphaDeg ≤ 180 :=
  alphaDeg_mem inp

/-- **C3**: in the record returned by `compute`, `driveN` is exactly `F_x`,
`sideN` is exactly `F_y`, and `powerW` is `driveN * boardSpeed`. -/
theorem C3_drive_side_power (inp : Inputs) :
    (compute inp).driveN = (compute inp).F_x ∧
    (compute inp).sideN = (compute inp).F_y ∧
    (compute inp).powerW = (compute inp).driveN * inp.boardSpeed :=
  ⟨rfl, rfl, rfl⟩

/-- **C5**: the lift coefficient produced by `compute` always lies in
`[-clMax, clMax]`, where `clMax = 1.2 - 0.4*flatness` and
`flatness = clamp(0.5*downhaul + 0.5*outhaul, 0, 1)`. -/
theorem C5_cl_bounded (inp : Inputs) :
    -clMax inp ≤ (compute inp).cl ∧ (compute inp).cl ≤ clMax inp ∧
    clMax inp = 1.2 - 0.4 * flatness inp ∧
    flatness inp = clamp (0.5 * inp.downhaul + 0.5 * inp.outhaul) 0 1 := by
  have hcm : (0 : ℝ) ≤ clMax inp := le_trans (by norm_num) (clMax_mem inp).1
  refine ⟨le_clamp _ _ _, clamp_le _ (by linarith), rfl, rfl⟩

/-! ### Sheeting clamp stability (C6) -/

lemma compute_sheeting_congr (inp : Inputs) (v : ℝ)
    (h : clamp v (-85) 85 = clamp inp.sheetingDeg (-85) 85) :
    compute { inp with sheetingDeg := v } = compute inp := by
  simp only [compute, F_x, F_y, L_x, L_y, D_x, D_y, liftSign, liftN, dragN, q,
    ux, uy, cd, cd0, cl, clMax, alphaLin, stallDeg, flatness, alphaDeg,
    alphaRaw, awaDeg, sailAngleDeg, Va, Va_x, Va_y, Vw_x, Vw_y, Vb_x, h]

/-- **C6**: an input whose `sheetingDeg` lies outside `[-85, 85]` produces,
field by field, exactly the output of the same input with `sheetingDeg`
replaced by the clamped value `85` (resp. `-85`). -/
theorem C6_sheeting_clamped (inp : Inputs) :
    (85 < inp.sheetingDeg →
      compute inp = compute { inp with sheetingDeg := 85 }) ∧
    (inp.sheetingDeg < -85 →
      compute inp = compute { inp with sheetingDeg := -85 }) := by
  constructor
  · intro h
    have h85 : clamp (85 : ℝ) (-85) 85 = clamp inp.sheetingDeg (-85) 85 := by
      rw [clamp_eq_of_mem (by norm_num) (by norm_num),
        clamp_eq_hi (by norm_num) h.le]
    exact (compute_sheeting_congr inp 85 h85).symm
  · intro h
    have hm : clamp (-85 : ℝ) (-85) 85 = clamp inp.sheetingDeg (-85) 85 := by
      rw [clamp_eq_of_mem (by norm_num) (by norm_num),
        clamp_eq_lo (by norm_num) h.le]
    exact (compute_sheeting_congr inp (-85) hm).symm

/-- Witness for C6 at `sheetingDeg = 120`. -/
theorem C6_sheeting_clamped_witness :
    compute ⟨1, 0, 0, 1, 120, 0, 0⟩ =
      compute { (⟨1, 0, 0, 1, 120, 0, 0⟩ : Inputs) with sheetingDeg := 85 } :=
  (C6_sheeting_clamped ⟨1, 0, 0, 1, 120, 0, 0⟩).1 (by norm_num)

/-! ### Zero apparent wind (C7) -/

/-- **C7**: with `trueWindSpeed = 10`, `courseAngleDeg = 180`,
`boardSpeed = 10` and arbitrary sail/trim inputs, `compute` returns
apparent wind speed exactly 0 and zero lift and drag magnitudes. -/
theorem C7_zero_apparent_wind (A s dh oh : ℝ) :
    (compute ⟨10, 180, 10, A, s, dh, oh⟩).apparentWindSpeed = 0 ∧
    (compute ⟨10, 180, 10, A, s, dh, oh⟩).liftN = 0 ∧
    (compute ⟨10, 180, 10, A, s, dh, oh⟩).dragN = 0 := by
  have hang : Real.pi - (180 : ℝ) * DEG = 0 := by
    unfold DEG
    ring
  have hx : Va_x ⟨10, 180, 10, A, s, dh, oh⟩ = 0 := by
    unfold Va_x Vw_x Vb_x
    show 10 * Real.cos (Real.pi - 180 * DEG) - 10 = 0
    rw [hang, Real.cos_zero]
    norm_num
  have hy : Va_y ⟨10, 180, 10, A, s, dh, oh⟩ = 0 := by
    unfold Va_y Vw_y
    show 10 * Real.sin (Real.pi - 180 * DEG) - 0 = 0
    rw [hang, Real.sin_zero]
    norm_num
  have hVa : Va ⟨10, 180, 10, A, s, dh, oh⟩ = 0 := by
    unfold Va vecMag
    rw [hx, hy]
    norm_num
  refine ⟨hVa, ?_, ?_⟩
  · show liftN _ = 0
    unfold liftN q
    rw [hVa]
    ring
  · show dragN _ = 0
    unfold dragN q
    rw [hVa]
    ring

/-! ### Lift direction (C9) -/

lemma Va_nonneg (inp : Inputs) : 0 ≤ Va inp := Real.sqrt_nonneg _

lemma q_nonneg (inp : Inputs) : 0 ≤ q inp := by
  unfold q rho
  nlinarith [Va_nonneg inp]

lemma cl_sign (inp : Inputs) :
    (alphaDeg inp = 0 → cl inp = 0) ∧
    (0 < alphaDeg inp → 0 < cl inp) ∧
    (alphaDeg inp < 0 → cl inp < 0) := by
  obtain ⟨hs, _⟩ := stallDeg_mem inp
  obtain ⟨hm, _⟩ := clMax_mem inp
  unfold cl alphaLin clAlphaPerDeg clamp
  refine ⟨?_, ?_, ?_⟩
  · intro h
    rw [h, min_eq_right (by linarith : (0 : ℝ) ≤ stallDeg inp),
      max_eq_right (by linarith : -stallDeg inp ≤ (0 : ℝ)), mul_zero,
      min_eq_right (by linarith : (0 : ℝ) ≤ clMax inp),
      max_eq_right (by linarith : -clMax inp ≤ (0 : ℝ))]
  · intro h
    have h1 : 0 < min (stallDeg inp) (alphaDeg inp) := lt_min (by linarith) h
    have h2 : 0 < max (-stallDeg inp) (min (stallDeg inp) (alphaDeg inp)) :=
      lt_of_lt_of_le h1 (le_max_right _ _)
    have h3 : 0 < min (clMax inp)
        (0.11 * max (-stallDeg inp) (min (stallDeg inp) (alphaDeg inp))) :=
      lt_min (by linarith) (by nlinarith)
    exact lt_of_lt_of_le h3 (le_max_right _ _)
  · intro h
    have h1 : min (stallDeg inp) (alphaDeg inp) < 0 :=
      lt_of_le_of_lt (min_le_right _ _) h
    have h2 : max (-stallDeg inp) (min (stallDeg inp) (alphaDeg inp)) < 0 :=
      max_lt (by linarith) h1
    have h3 : min (clMax inp)
        (0.11 * max (-stallDeg inp) (min (stallDeg inp) (alphaDeg inp))) < 0 :=
      lt_of_le_of_lt (min_le_right _ _) (by nlinarith)
    exact max_lt (by linarith) h3

/-- **C9**: `cl` and `alphaDeg` always share their sign (`cl = 0` iff
`alphaDeg = 0`), the product `liftSign * liftN` equals `q * sailArea * |cl|`,
and hence for `sailArea ≥ 0` the lift vector `(L_x, L_y)` is a non-negative
multiple of the `+90°`-rotated apparent-wind unit vector `(-uy, ux)`. -/
theorem C9_lift_direction (inp : Inputs) :
    ((compute inp).cl = 0 ↔ (compute inp).alphaDeg = 0) ∧
    (0 < (compute inp).cl ↔ 0 < (compute inp).alphaDeg) ∧
    liftSign inp * (compute inp).liftN = q inp * inp.sailArea * |(compute inp).cl| ∧
    (0 ≤ inp.sailArea → ∃ c, 0 ≤ c ∧
      (compute inp).L_x = c * (-uy inp) ∧ (compute inp).L_y = c * ux inp) := by
  obtain ⟨hz, hp, hn⟩ := cl_sign inp
  have hiff1 : cl inp = 0 ↔ alphaDeg inp = 0 := by
    constructor
    · intro h
      rcases lt_trichotomy (alphaDeg inp) 0 with h1 | h1 | h1
      · exact absurd h (ne_of_lt (hn h1))
      · exact h1
      · exact absurd h (ne_of_gt (hp h1))
    · exact hz
  have hiff2 : 0 < cl inp ↔ 0 < alphaDeg inp := by
    constructor
    · intro h
      rcases lt_trichotomy (alphaDeg inp) 0 with h1 | h1 | h1
      · exact absurd h (asymm (hn h1))
      · exact absurd h (by rw [hz h1]; exact lt_irrefl 0)
      · exact h1
    · exact hp
  have hprod : liftSign inp * liftN inp = q inp * inp.sailArea * |cl inp| := by
    unfold liftSign liftN
    by_cases h : 0 ≤ alphaDeg inp
    · rw [if_pos h]
      have hcl : 0 ≤ cl inp := by
        rcases eq_or_lt_of_le h with h1 | h1
        · rw [hz h1.symm]
        · exact (hp h1).le
      rw [abs_of_nonneg hcl]
      ring
    · rw [if_neg h]
      have hcl : cl inp < 0 := hn (lt_of_not_le h)
      rw [abs_of_neg hcl]
      ring
  refine ⟨hiff1, hiff2, hprod, ?_⟩
  intro hA
  refine ⟨q inp * inp.sailArea * |cl inp|, ?_, ?_, ?_⟩
  · exact mul_nonneg (mul_nonneg (q_nonneg inp) hA) (abs_nonneg _)
  · show L_x inp = _
    unfold L_x
    rw [← hprod]
  · show L_y inp = _
    unfold L_y
    rw [← hprod]

/-- Witness for C9's `sailArea ≥ 0` implication at the concrete input `ex2`. -/
theorem C9_lift_direction_witness :
    ∃ c, 0 ≤ c ∧ (compute ex2).L_x = c * (-uy ex2) ∧
      (compute ex2).L_y = c * ux ex2 :=
  (C9_lift_direction ex2).2.2.2 (by show (0 : ℝ) ≤ 1; norm_num)

/-! ### Bounds on the drive force (used for the Top-Speed Solver claims) -/

lemma eps_pos : (0 : ℝ) < eps := by
  unfold eps
  norm_num

lemma Va_add_eps_pos (inp : Inputs) : 0 < Va inp + eps := by
  linarith [Va_nonneg inp, eps_pos]

lemma abs_Va_x_le (inp : Inputs) : |Va_x inp| ≤ Va inp := by
  unfold Va vecMag
  rw [← Real.sqrt_sq_eq_abs]
  apply Real.sqrt_le_sqrt
  nlinarith [sq_nonneg (Va_y inp)]

lemma abs_Va_y_le (inp : Inputs) : |Va_y inp| ≤ Va inp := by
  unfold Va vecMag
  rw [← Real.sqrt_sq_eq_abs]
  apply Real.sqrt_le_sqrt
  nlinarith [sq_nonneg (Va_x inp)]

lemma abs_ux_le_one (inp : Inputs) : |ux inp| ≤ 1 := by
  unfold ux
  rw [abs_div, abs_of_pos (Va_add_eps_pos inp), div_le_one (Va_add_eps_pos inp)]
  linarith [abs_Va_x_le inp, eps_pos]

lemma abs_uy_le_one (inp : Inputs) : |uy inp| ≤ 1 := by
  unfold uy
  rw [abs_div, abs_of_pos (Va_add_eps_pos inp), div_le_one (Va_add_eps_pos inp)]
  linarith [abs_Va_y_le inp, eps_pos]

lemma abs_cl_le (inp : Inputs) : |cl inp| ≤ 1.2 := by
  obtain ⟨hm, hM⟩ := clMax_mem inp
  have h1 : -clMax inp ≤ cl inp := le_clamp _ _ _
  have h2 : cl inp ≤ clMax inp := clamp_le _ (by linarith)
  rw [abs_le]
  constructor <;> linarith

lemma cd_mem (inp : Inputs) : 0.06 ≤ cd inp ∧ cd inp ≤ 0.1664 := by
  obtain ⟨h0, h1⟩ := flatness_mem inp
  have hcl := abs_cl_le inp
  have habs := abs_mul_abs_self (cl inp)
  have hcl2 : cl inp * cl inp ≤ 1.44 := by
    nlinarith [abs_nonneg (cl inp)]
  unfold cd cd0 kInduced
  constructor
  · nlinarith [mul_self_nonneg (cl inp)]
  · nlinarith

lemma abs_F_x_le (inp : Inputs) (hA : 0 ≤ inp.sailArea) :
    |F_x inp| ≤ q inp * inp.sailArea * 1.5 := by
  have hq := q_nonneg inp
  have hQ : 0 ≤ q inp * inp.sailArea := mul_nonneg hq hA
  have hux := abs_ux_le_one inp
  have huy := abs_uy_le_one inp
  have hcl := abs_cl_le inp
  obtain ⟨hcd0, hcd1⟩ := cd_mem inp
  have hcdpos : (0 : ℝ) ≤ cd inp := le_trans (by norm_num) hcd0
  have hLx : |L_x inp| ≤ q inp * inp.sailArea * 1.2 := by
    unfold L_x liftN liftSign
    rw [abs_mul, abs_mul, abs_neg, abs_mul, abs_mul, abs_of_nonneg hq,
      abs_of_nonneg hA]
    have hsign : |(if 0 ≤ alphaDeg inp then (1 : ℝ) else -1)| = 1 := by
      split <;> norm_num
    rw [hsign, one_mul]
    have hmul : |cl inp| * |uy inp| ≤ 1.2 * 1 :=
      mul_le_mul hcl huy (abs_nonneg _) (by norm_num)
    nlinarith [abs_nonneg (cl inp), abs_nonneg (uy inp)]
  have hDx : |D_x inp| ≤ q inp * inp.sailArea * 0.1664 := by
    unfold D_x dragN
    rw [abs_mul, abs_neg, abs_mul, abs_mul, abs_of_nonneg hq, abs_of_nonneg hA,
      abs_of_nonneg hcdpos]
    have hmul : cd inp * |ux inp| ≤ 0.1664 * 1 :=
      mul_le_mul hcd1 hux (abs_nonneg _) (by norm_num)
    nlinarith [abs_nonneg (ux inp)]
  have habs : |F_x inp| ≤ |L_x inp| + |D_x inp| := abs_add _ _
  nlinarith

lemma Va_le (inp : Inputs) :
    Va inp ≤ |inp.trueWindSpeed| + |inp.boardSpeed| := by
  unfold Va vecMag Va_x Va_y Vw_x Vw_y Vb_x
  have h1 : Real.sin (Real.pi - inp.courseAngleDeg * DEG) ^ 2 +
      Real.cos (Real.pi - inp.courseAngleDeg * DEG) ^ 2 = 1 :=
    Real.sin_sq_add_cos_sq _
  have hc : |Real.cos (Real.pi - inp.courseAngleDeg * DEG)| ≤ 1 :=
    Real.abs_cos_le_one _
  have h2 : |inp.trueWindSpeed * inp.boardSpeed *
      Real.cos (Real.pi - inp.courseAngleDeg * DEG)| ≤
      |inp.trueWindSpeed| * |inp.boardSpeed| := by
    rw [abs_mul, abs_mul]
    exact mul_le_of_le_one_right
      (mul_nonneg (abs_nonneg _) (abs_nonneg _)) hc
  have key : (inp.trueWindSpeed * Real.cos (Real.pi - inp.courseAngleDeg * DEG)
        - inp.boardSpeed) ^ 2 +
      (inp.trueWindSpeed * Real.sin (Real.pi - inp.courseAngleDeg * DEG) - 0) ^ 2
        ≤ (|inp.trueWindSpeed| + |inp.boardSpeed|) ^ 2 := by
    have h3 := neg_abs_le (inp.trueWindSpeed * inp.boardSpeed *
      Real.cos (Real.pi - inp.courseAngleDeg * DEG))
    nlinarith [sq_abs inp.trueWindSpeed, sq_abs inp.boardSpeed]
  calc Real.sqrt _ ≤
      Real.sqrt ((|inp.trueWindSpeed| + |inp.boardSpeed|) ^ 2) :=
        Real.sqrt_le_sqrt key
    _ = |inp.trueWindSpeed| + |inp.boardSpeed| :=
        Real.sqrt_sq (add_nonneg (abs_nonneg _) (abs_nonneg _))

/-! ### The concrete input `ex2` under the sweep -/

lemma ex2_bound (kk : ℕ) (hkk : kk < 301) :
    max 0 (-(compute { ex2 with boardSpeed := (kk : ℝ) / 10 }).driveN) <
      1000 + 0 * ((kk : ℝ) / 10) * ((kk : ℝ) / 10) := by
  have hk : (kk : ℝ) ≤ 300 := by
    exact_mod_cast Nat.le_of_lt_succ hkk
  have hk0 : (0 : ℝ) ≤ (kk : ℝ) := Nat.cast_nonneg kk
  have htw : ({ ex2 with boardSpeed := (kk : ℝ) / 10 } : Inputs).trueWindSpeed
      = 1 := rfl
  have hbs : ({ ex2 with boardSpeed := (kk : ℝ) / 10 } : Inputs).boardSpeed
      = (kk : ℝ) / 10 := rfl
  have hA : ({ ex2 with boardSpeed := (kk : ℝ) / 10 } : Inputs).sailArea
      = 1 := rfl
  have hVa : Va { ex2 with boardSpeed := (kk : ℝ) / 10 } ≤ 31 := by
    have h := Va_le { ex2 with boardSpeed := (kk : ℝ) / 10 }
    rw [htw, hbs] at h
    have hb' : |(kk : ℝ) / 10| ≤ 30 := by
      rw [abs_of_nonneg (by positivity)]
      linarith
    have h1 : |(1 : ℝ)| = 1 := by norm_num
    rw [h1] at h
    linarith
  have hq : q { ex2 with boardSpeed := (kk : ℝ) / 10 } ≤ 588.6125 := by
    unfold q rho
    nlinarith [Va_nonneg { ex2 with boardSpeed := (kk : ℝ) / 10 }]
  have hF := abs_F_x_le { ex2 with boardSpeed := (kk : ℝ) / 10 }
    (by rw [hA]; norm_num)
  rw [hA, mul_one] at hF
  have h2 : max 0 (-(compute { ex2 with boardSpeed := (kk : ℝ) / 10 }).driveN)
      ≤ |F_x { ex2 with boardSpeed := (kk : ℝ) / 10 }| :=
    max_le (abs_nonneg _) (neg_le_abs _)
  nlinarith [q_nonneg { ex2 with boardSpeed := (kk : ℝ) / 10 }]

lemma ex2_driveN_pos : 0 < (compute { ex2 with boardSpeed := (0 : ℝ) }).driveN := by
  have hang : Real.pi -
      ({ ex2 with boardSpeed := (0 : ℝ) } : Inputs).courseAngleDeg * DEG
        = Real.pi := by
    show Real.pi - 0 * DEG = Real.pi
    ring
  have hx : Va_x { ex2 with boardSpeed := (0 : ℝ) } = -1 := by
    unfold Va_x Vw_x Vb_x
    rw [hang, Real.cos_pi]
    show (1 : ℝ) * -1 - 0 = -1
    norm_num
  have hy : Va_y { ex2 with boardSpeed := (0 : ℝ) } = 0 := by
    unfold Va_y Vw_y
    rw [hang, Real.sin_pi]
    show (1 : ℝ) * 0 - 0 = 0
    norm_num
  have hVa : Va { ex2 with boardSpeed := (0 : ℝ) } = 1 := by
    unfold Va vecMag
    rw [hx, hy]
    norm_num
  have hqv : q { ex2 with boardSpeed := (0 : ℝ) } = 0.6125 := by
    unfold q rho
    rw [hVa]
    norm_num
  have hux : ux { ex2 with boardSpeed := (0 : ℝ) } < 0 := by
    unfold ux
    rw [hx, hVa]
    exact div_neg_of_neg_of_pos (by norm_num) (by linarith [eps_pos])
  have huy : uy { ex2 with boardSpeed := (0 : ℝ) } = 0 := by
    unfold uy
    rw [hy]
    exact zero_div _
  have hdrag : 0 < dragN { ex2 with boardSpeed := (0 : ℝ) } := by
    unfold dragN
    rw [hqv]
    have hA : ({ ex2 with boardSpeed := (0 : ℝ) } : Inputs).sailArea = 1 := rfl
    rw [hA, mul_one]
    obtain ⟨hcd0, _⟩ := cd_mem { ex2 with boardSpeed := (0 : ℝ) }
    nlinarith
  have hLx : L_x { ex2 with boardSpeed := (0 : ℝ) } = 0 := by
    unfold L_x
    rw [huy, neg_zero, mul_zero]
  have hDx : 0 < D_x { ex2 with boardSpeed := (0 : ℝ) } := by
    unfold D_x
    exact mul_pos_of_neg_of_neg (by linarith) hux
  show 0 < F_x { ex2 with boardSpeed := (0 : ℝ) }
  unfold F_x
  rw [hLx]
  linarith

/-! ### Behaviour of the sweep loop -/

lemma topSpeedBest_eq_zero (inp : Inputs) (waterC0 waterC2 : ℝ)
    (h : ∀ kk : ℕ, kk < 301 →
      max 0 (-(compute { inp with boardSpeed := (kk : ℝ) / 10 }).driveN) <
        waterC0 + waterC2 * ((kk : ℝ) / 10) * ((kk : ℝ) / 10)) :
    topSpeedBest inp waterC0 waterC2 = 0 := by
  have key : ∀ (l : List ℕ) (b : ℝ), (∀ kk ∈ l, kk < 301) →
      List.foldl
        (fun (best : ℝ) (kk : ℕ) =>
          if waterC0 + waterC2 * ((kk : ℝ) / 10) * ((kk : ℝ) / 10) ≤
              max 0 (-(compute { inp with boardSpeed := (kk : ℝ) / 10 }).driveN)
          then (kk : ℝ) / 10 else best)
        b l = b := by
    intro l
    induction l with
    | nil => intro b _; rfl
    | cons a t ih =>
      intro b hmem
      have ha : a < 301 := hmem a (List.mem_cons_self a t)
      rw [List.foldl_cons, if_neg (not_le.mpr (h a ha))]
      exact ih b fun kk hk => hmem kk (List.mem_cons_of_mem a hk)
  exact key (List.range 301) 0 fun kk hk => List.mem_range.mp hk

lemma topSpeedBest_all_pass (inp : Inputs) :
    topSpeedBest inp 0 0 = 30 := by
  show List.foldl
      (fun (best : ℝ) (kk : ℕ) =>
        if (0 : ℝ) + 0 * ((kk : ℝ) / 10) * ((kk : ℝ) / 10) ≤
            max 0 (-(compute { inp with boardSpeed := (kk : ℝ) / 10 }).driveN)
        then (kk : ℝ) / 10 else best)
      0 (List.range 301) = 30
  have h301 : (301 : ℕ) = 300 + 1 := rfl
  rw [h301, List.range_succ, List.foldl_append, List.foldl_cons, List.foldl_nil]
  rw [if_pos (by
    have : (0 : ℝ) + 0 * (((300 : ℕ) : ℝ) / 10) * (((300 : ℕ) : ℝ) / 10) = 0 := by
      ring
    rw [this]
    exact le_max_left _ _)]
  push_cast
  norm_num

/-- **C4**: with `waterC0 = 0` and `waterC2 = 0` the Top-Speed Solver returns
speed exactly 30 m/s (the last sampled speed) for every fixed wind/rig input,
since `max(0, -driveN) ≥ 0` holds at every sample. -/
theorem C4_no_drag_saturates (inp : Inputs) : (topSpeed inp 0 0).mps = 30 := by
  have h1 : (topSpeed inp 0 0).mps = topSpeedBest inp 0 0 := rfl
  rw [h1, topSpeedBest_all_pass]

/-- **C2 (counterexample)**: at the concrete input `ex2` with
`waterC0 = 1000`, `waterC2 = 0`, every sampled drive is strictly below the
water drag, yet the returned drive force is not 0 (it is `-driveN` at speed 0,
which is strictly negative here), refuting the "drive force 0" part of the
claim. -/
theorem C2_counterexample :
    (∀ kk : ℕ, kk < 301 →
      max 0 (-(compute { ex2 with boardSpeed := (kk : ℝ) / 10 }).driveN) <
        1000 + 0 * ((kk : ℝ) / 10) * ((kk : ℝ) / 10)) ∧
    (topSpeed ex2 1000 0).driveN ≠ 0 := by
  refine ⟨ex2_bound, ?_⟩
  have hbest : topSpeedBest ex2 1000 0 = 0 := topSpeedBest_eq_zero _ _ _ ex2_bound
  have h3 : (topSpeed ex2 1000 0).driveN =
      -(compute { ex2 with boardSpeed := topSpeedBest ex2 1000 0 }).driveN := rfl
  rw [h3, hbest]
  have := ex2_driveN_pos
  intro hc
  rw [neg_eq_zero] at hc
  linarith

/-- **C2 (amended)**: if every sampled drive `max(0, -driveN)` is strictly
below the water drag `waterC0 + waterC2*V²`, the Top-Speed Solver returns
speed 0 and water drag `waterC0`, and its drive force is the raw `-driveN`
of `compute` at board speed 0 (which need not be 0). -/
theorem C2_amended_default_result (inp : Inputs) (waterC0 waterC2 : ℝ)
    (h : ∀ kk : ℕ, kk < 301 →
      max 0 (-(compute { inp with boardSpeed := (kk : ℝ) / 10 }).driveN) <
        waterC0 + waterC2 * ((kk : ℝ) / 10) * ((kk : ℝ) / 10)) :
    (topSpeed inp waterC0 waterC2).mps = 0 ∧
    (topSpeed inp waterC0 waterC2).waterDragN = waterC0 ∧
    (topSpeed inp waterC0 waterC2).driveN =
      -(compute { inp with boardSpeed := 0 }).driveN := by
  have hbest : topSpeedBest inp waterC0 waterC2 = 0 :=
    topSpeedBest_eq_zero _ _ _ h
  have h1 : (topSpeed inp waterC0 waterC2).mps =
      topSpeedBest inp waterC0 waterC2 := rfl
  have h2 : (topSpeed inp waterC0 waterC2).waterDragN =
      waterC0 + waterC2 * topSpeedBest inp waterC0 waterC2 *
        topSpeedBest inp waterC0 waterC2 := rfl
  have h3 : (topSpeed inp waterC0 waterC2).driveN =
      -(compute
        { inp with boardSpeed := topSpeedBest inp waterC0 waterC2 }).driveN :=
    rfl
  rw [h1, h2, h3, hbest]
  exact ⟨rfl, by ring, rfl⟩

/-- Witness for the amended C2 at the concrete instance `ex2`, `waterC0 = 1000`,
`waterC2 = 0`. -/
theorem C2_amended_default_result_witness :
    (topSpeed ex2 1000 0).mps = 0 ∧
    (topSpeed ex2 1000 0).waterDragN = 1000 ∧
    (topSpeed ex2 1000 0).driveN =
      -(compute { ex2 with boardSpeed := 0 }).driveN :=
  C2_amended_default_result ex2 1000 0 ex2_bound

/-- **C10**: the Top-Speed Solver's returned drive force is the raw `-driveN`
of `compute` at the result speed, without the `max(0, ·)` clamp used inside
the sweep; at the concrete input `ex2` with `waterC0 = 1000`, `waterC2 = 0`
no sample satisfies the condition and the returned drive force is strictly
negative. -/
theorem C10_raw_drive :
    (∀ (inp : Inputs) (waterC0 waterC2 : ℝ),
      (topSpeed inp waterC0 waterC2).driveN =
        -(compute
          { inp with boardSpeed := (topSpeed inp waterC0 waterC2).mps }).driveN) ∧
    (∀ kk : ℕ, kk < 301 →
      max 0 (-(compute { ex2 with boardSpeed := (kk : ℝ) / 10 }).driveN) <
        1000 + 0 * ((kk : ℝ) / 10) * ((kk : ℝ) / 10)) ∧
    (topSpeed ex2 1000 0).driveN < 0 := by
  refine ⟨fun inp waterC0 waterC2 => rfl, ex2_bound, ?_⟩
  have hbest : topSpeedBest ex2 1000 0 = 0 := topSpeedBest_eq_zero _ _ _ ex2_bound
  have h3 : (topSpeed ex2 1000 0).driveN =
      -(compute { ex2 with boardSpeed := topSpeedBest ex2 1000 0 }).driveN := rfl
  rw [h3, hbest]
  linarith [ex2_driveN_pos]

end Windsurf
